import Mathlib

/-!
Verification development for the meetingsense-ai analysis orchestration engine.

The definitions below are a shallow embedding of the server-side analysis
pipeline:
  src/server/services/geminiAnalyzer.js  (error classifier, smart retry
    wrapper, payload assembly, fallback strategy chain), and
  src/server/routes/meetings.js  (the SSE progress channel and the
    POST /:id/analyze handler's persistence ordering).

The repository ships two revisions of geminiAnalyzer.js concatenated in one
file; we embed the revision containing classifyGeminiError / withSmartRetry,
which is the one the specification describes and whose line numbers the
claims cite.

Modelling conventions:
  - JavaScript strings are modelled as Lean String (lists of characters);
    the messages involved are ASCII apart from a few emoji, so the
    UTF-16-unit / codepoint distinction is immaterial here.
  - Filesystem reads are modelled as total oracle functions (the analyzed
    claims do not concern filesystem faults); remote calls are modelled as
    attempt-indexed oracles returning `Except`.
  - JavaScript exceptions are modelled with `Except`; a function that
    catches internally is total.
  - `Math.floor(i * (len / count))` on IEEE doubles is modelled as the
    exact rational floor, i.e. natural-number division `i * len / count`.
-/

set_option maxRecDepth 16384

namespace MeetingSense

/-! ## String and list helpers (JS string primitives over `List Char`) -/

/-- JS whitespace test, restricted to the ASCII whitespace that appears in
the modelled strings. -/
def jsIsWs (c : Char) : Bool :=
  c = ' ' || c = '\t' || c = '\n' || c = '\r'

/-- Does the needle occur at the very start of the haystack? -/
def leadMatch : List Char → List Char → Bool
  | _, [] => true
  | [], _ :: _ => false
  | a :: as, b :: bs => a = b && leadMatch as bs

/-- Substring occurrence test over character lists (JS `String.includes`). -/
def hasSub : List Char → List Char → Bool
  | [], nee => nee.isEmpty
  | c :: t, nee => leadMatch (c :: t) nee || hasSub t nee

/-- JS `haystack.includes(needle)`. -/
def strHas (hay nee : String) : Bool :=
  hasSub hay.data nee.data

/-- JS `toLowerCase` (ASCII). -/
def strToLower (s : String) : String :=
  String.mk (s.data.map Char.toLower)

/-- Index search used to model JS `String.indexOf`: the accumulator `i`
is the index of the head of the remaining haystack. -/
def idxAux (nee : List Char) : List Char → Nat → Option Nat
  | [], i => if leadMatch [] nee then some i else none
  | c :: t, i => if leadMatch (c :: t) nee then some i else idxAux nee t (i + 1)

/-- JS `haystack.indexOf(needle)`; `none` models -1. -/
def jsIndexOfL (hay nee : List Char) : Option Nat :=
  idxAux nee hay 0

/-- JS `String.split('\n')` over character lists. -/
def splitNlAux : List Char → List Char → List (List Char)
  | [], acc => [acc.reverse]
  | c :: t, acc => if c = '\n' then acc.reverse :: splitNlAux t [] else splitNlAux t (c :: acc)

/-- JS `String.split('\n')`. -/
def splitNl (l : List Char) : List (List Char) :=
  splitNlAux l []

/-- JS `Array.join('\n')` over character lists. -/
def joinNl : List (List Char) → List Char
  | [] => []
  | [x] => x
  | x :: y :: t => x ++ '\n' :: joinNl (y :: t)

/-- JS `String.trim()` (both-ends whitespace strip). -/
def jsTrimL (l : List Char) : List Char :=
  ((l.dropWhile jsIsWs).reverse.dropWhile jsIsWs).reverse

/-- JS `String.trim()` on strings. -/
def jsTrim (s : String) : String :=
  String.mk (jsTrimL s.data)

/-! ## Tunables (geminiAnalyzer.js) -/

def INLINE_LIMIT_BYTES : Nat := 15 * 1024 * 1024
def MAX_SCREENSHOTS : Nat := 40
/-- 1.5 * 1024 * 1024 bytes, exact. -/
def MAX_IMAGE_BYTES : Nat := 1572864
def MAX_RETRIES : Nat := 3
def RETRY_BASE_MS : Nat := 3000
def RATE_LIMIT_WAIT_MS : Nat := 65000

/-! ## Error classification (classifyGeminiError) -/

/-- The twelve classification kinds of the error classifier. -/
inductive ErrType where
  | QUOTA_EXHAUSTED
  | RATE_LIMITED
  | KEY_LEAKED
  | AUTH_ERROR
  | BILLING_REQUIRED
  | INVALID_REQUEST
  | FILE_EXPIRED
  | SERVER_ERROR
  | SERVICE_UNAVAILABLE
  | DEADLINE_EXCEEDED
  | CONTEXT_OVERFLOW
  | UNKNOWN
  deriving DecidableEq, Repr

/-- A raw provider error: `status` models `err.status ?? err.statusCode`
(absent on plain `Error`s), `msg` models `String(err?.message || ...)`. -/
structure RawErr where
  status : Option Nat
  msg : String
  deriving DecidableEq, Repr

/-- The structured classification returned by `classifyGeminiError`. -/
structure Classification where
  type : ErrType
  retryable : Bool
  waitMs : Option Nat
  userMessage : String
  deriving DecidableEq, Repr

/-- `extractHttpStatus`: first occurrence of a bracketed 3-digit token
followed by whitespace, as in `"[429 RESOURCE_EXHAUSTED]"`
(regex `\[(\d{3})\s`). -/
def extractHttpStatusL : List Char → Option Nat
  | '[' :: a :: b :: c :: d :: rest =>
      if a.isDigit && b.isDigit && c.isDigit && jsIsWs d then
        some ((a.toNat - 48) * 100 + (b.toNat - 48) * 10 + (c.toNat - 48))
      else extractHttpStatusL (a :: b :: c :: d :: rest)
  | _ :: rest => extractHttpStatusL rest
  | [] => none

/-- `extractHttpStatus` on strings. -/
def extractHttpStatus (message : String) : Option Nat :=
  extractHttpStatusL message.data

def quotaMsg : String :=
  "📊 Daily API quota exhausted.\n\n" ++
  "Your free-tier daily request limit has been reached. It resets at midnight Pacific Time (PT).\n\n" ++
  "Options:\n" ++
  "• Wait until midnight PT and try again\n" ++
  "• Upgrade to a paid plan at aistudio.google.com for higher quotas\n" ++
  "• Use a different Gemini API key in Settings"

def rateLimitedMsg : String :=
  "⏱️ Rate limit hit (too many requests per minute).\n\n" ++
  "Waiting 65 seconds before retrying automatically...\n" ++
  "You can view your current limits at: aistudio.google.com/rate-limit"

def keyLeakedMsg : String :=
  "🚨 Your API key has been flagged as leaked by Google.\n\n" ++
  "Create a new API key at aistudio.google.com/apikey and update it in Settings."

def authErrorMsg : String :=
  "🔑 API key permission denied.\n\n" ++
  "Your key may be invalid, expired, or restricted.\n" ++
  "Please check your API key in Settings → it should start with \"AI...\".\n" ++
  "Generate a new one at aistudio.google.com/apikey if needed."

def billingMsg : String :=
  "💳 Gemini API requires billing to be enabled for your account or region.\n\n" ++
  "Enable billing at: aistudio.google.com → Settings → Billing.\n" ++
  "The free tier is available in most regions — ensure your account is verified."

def invalidReqMsgPre : String :=
  "❌ The request was rejected as invalid.\n\n" ++
  "This usually means the audio format is unsupported, or a required field is missing.\n" ++
  "Detail: "

def fileExpiredMsg : String :=
  "📁 The uploaded audio file reference has expired on Gemini\x27s servers.\n\n" ++
  "Gemini File API files expire after 48 hours. Please re-submit the recording for analysis."

def serverErrorMsg : String :=
  "⚠️ Gemini encountered an internal server error.\n\n" ++
  "This sometimes happens with very large inputs. Retrying with a smaller payload..."

def unavailableMsg : String :=
  "🔄 Gemini is temporarily overloaded.\n\nRetrying in a moment..."

def deadlineMsg : String :=
  "⏰ Gemini could not finish processing within its time limit.\n\n" ++
  "This can happen with very long recordings on smaller models.\n" ++
  "Try switching to a more powerful model (e.g. gemini-2.5-pro) in Settings."

def contextOverflowMsg : String :=
  "📏 The recording is too large for the model\x27s context window.\n\nReducing payload and retrying..."

def unknownFallbackMsg : String :=
  "An unexpected error occurred. Please try again."

/-- Condition for the 429 branch of the classifier. -/
def is429Cond (status : Option Nat) (raw lower : String) : Bool :=
  status = some 429 || strHas lower "resource_exhausted" || strHas lower "rate limit" || strHas raw "429"

/-- The quota / daily-limit signal inside the 429 branch. -/
def quotaSignal (lower : String) : Bool :=
  strHas lower "quota" || strHas lower "daily" || strHas lower "per day" || strHas lower "exhausted"

/-- `classifyGeminiError`: maps a raw provider error to a structured
classification, mirroring the decision tree of the source branch by
branch (first match wins). -/
def classifyGeminiError (e : RawErr) : Classification :=
  let raw := e.msg
  let lower := strToLower raw
  let status := match e.status with
    | some s => some s
    | none => extractHttpStatus raw
  if is429Cond status raw lower then
    if quotaSignal lower then
      ⟨.QUOTA_EXHAUSTED, false, none, quotaMsg⟩
    else
      ⟨.RATE_LIMITED, true, some RATE_LIMIT_WAIT_MS, rateLimitedMsg⟩
  else if status = some 403 || strHas lower "permission_denied" || strHas lower "permission denied" || strHas raw "403" then
    if strHas lower "leaked" || strHas lower "reported" then
      ⟨.KEY_LEAKED, false, none, keyLeakedMsg⟩
    else
      ⟨.AUTH_ERROR, false, none, authErrorMsg⟩
  else if (status = some 400 || strHas raw "400") &&
      (strHas lower "failed_precondition" || strHas lower "billing" || strHas lower "region" || strHas lower "precondition") then
    ⟨.BILLING_REQUIRED, false, none, billingMsg⟩
  else if status = some 400 || strHas lower "invalid_argument" then
    ⟨.INVALID_REQUEST, false, none, invalidReqMsgPre ++ String.mk (raw.data.take 200)⟩
  else if status = some 404 || strHas lower "not_found" || strHas raw "404" then
    ⟨.FILE_EXPIRED, false, none, fileExpiredMsg⟩
  else if status = some 500 || strHas lower "internal" then
    ⟨.SERVER_ERROR, true, none, serverErrorMsg⟩
  else if status = some 503 || strHas lower "unavailable" then
    ⟨.SERVICE_UNAVAILABLE, true, some 10000, unavailableMsg⟩
  else if status = some 504 || strHas lower "deadline_exceeded" then
    ⟨.DEADLINE_EXCEEDED, false, none, deadlineMsg⟩
  else if strHas lower "token" || strHas lower "context length" || strHas lower "exceeds" || strHas lower "too large" then
    ⟨.CONTEXT_OVERFLOW, true, none, contextOverflowMsg⟩
  else
    ⟨.UNKNOWN, true, none, if raw = "" then unknownFallbackMsg else raw⟩

/-! ## Smart retry wrapper (withSmartRetry) -/

/-- `GeminiUserError`: the user-facing error raised by the retry wrapper,
carrying the classification's message and kind. -/
structure GUserE where
  userMessage : String
  type : ErrType
  deriving DecidableEq, Repr

/-- Observable actions of one `withSmartRetry` run: operation invocations,
progress emissions, and waits (`await sleep`). -/
inductive RetryEvent where
  | invoke (attempt : Nat)
  | emitted (stage detail : String)
  | wait (ms : Nat)
  deriving DecidableEq, Repr

/-- The progress emission issued before a retry wait: stage and detail
strings exactly as interpolated in the source (`waitSec` is
`Math.round(waitMs / 1000)`). -/
def retryEmit (c : Classification) (attempt maxAttempts waitMs : Nat) : RetryEvent :=
  let waitSec := (waitMs + 500) / 1000
  if c.type = .RATE_LIMITED then
    .emitted "Rate limit — waiting"
      ("Waiting " ++ Nat.repr waitSec ++ "s before retry (attempt " ++
        Nat.repr (attempt + 1) ++ "/" ++ Nat.repr maxAttempts ++ ")...")
  else
    .emitted "Retrying"
      ("Attempt " ++ Nat.repr (attempt + 1) ++ "/" ++ Nat.repr maxAttempts ++
        " in " ++ Nat.repr waitSec ++ "s...")

/-- The `for attempt` loop of `withSmartRetry`, structurally recursive on the
remaining attempts (`fuel = maxAttempts - attempt + 1`). The fuel-exhausted
case models the loop exiting with `lastErr` undefined, which the source then
classifies (only reachable when `maxAttempts = 0`). -/
def smartRetryGo (op : Nat → Except RawErr α) (maxAttempts baseMs : Nat) :
    Nat → Nat → Except GUserE α × List RetryEvent
  | _, 0 =>
      let c := classifyGeminiError ⟨none, ""⟩
      (.error ⟨c.userMessage, c.type⟩, [])
  | attempt, fuel + 1 =>
      match op attempt with
      | .ok v => (.ok v, [.invoke attempt])
      | .error err =>
          let c := classifyGeminiError err
          if c.retryable = false then
            (.error ⟨c.userMessage, c.type⟩, [.invoke attempt])
          else if maxAttempts ≤ attempt then
            (.error ⟨c.userMessage, c.type⟩, [.invoke attempt])
          else
            let waitMs := c.waitMs.getD (baseMs * 2 ^ (attempt - 1))
            let rest := smartRetryGo op maxAttempts baseMs (attempt + 1) fuel
            (rest.1, .invoke attempt :: retryEmit c attempt maxAttempts waitMs :: .wait waitMs :: rest.2)

/-- `withSmartRetry(fn, maxAttempts, baseMs, label, emit)`: returns the
operation's result or raises a `GeminiUserError`, together with the trace of
invocations, emissions and waits. -/
def withSmartRetry (op : Nat → Except RawErr α) (maxAttempts baseMs : Nat) :
    Except GUserE α × List RetryEvent :=
  smartRetryGo op maxAttempts baseMs 1 maxAttempts

/-- Number of operation invocations in a retry trace. -/
def invokeCount (evs : List RetryEvent) : Nat :=
  (evs.filter fun e => match e with | .invoke _ => true | _ => false).length

/-- Number of waits (`await sleep`) in a retry trace. -/
def waitCount (evs : List RetryEvent) : Nat :=
  (evs.filter fun e => match e with | .wait _ => true | _ => false).length

/-! ## JS error values crossing the strategy loop -/

/-- A JS error value as seen by the `analyzeRecording` catch block: either a
`GeminiUserError` (detected via `instanceof`) or a plain `Error`. -/
inductive JsError where
  | guser (type : ErrType) (msg : String)
  | plain (msg : String)
  deriving DecidableEq, Repr

/-- `String(err?.message || '')`. -/
def jsMessage : JsError → String
  | .guser _ m => m
  | .plain m => m

/-! ## Progress channel (meetings.js: send / keepalive / finally res.end) -/

/-- The SSE transport: `writeFails k` says whether the k-th attempted
`res.write` raises (peer gone, ECONNRESET/EPIPE, ...). -/
structure Transport where
  writeFails : Nat → Bool

/-- Channel state: Node's `res.writableEnded`, the handler's `clientGone`
flag, and the count of `res.write` calls attempted so far (indexing the
transport's outcomes). -/
structure ChanState where
  writableEnded : Bool
  clientGone : Bool
  writeAttempts : Nat
  deriving DecidableEq, Repr

/-- Has outbound writing been shut off? -/
def flagged (st : ChanState) : Bool :=
  st.writableEnded || st.clientGone

/-- `send(data)`: skip when ended or peer gone; otherwise attempt one
`res.write`; a write failure is swallowed and sets `clientGone`. Returns the
new state and the number of transport writes performed (0 or 1). Total
because every raising operation is inside the source's try/catch. -/
def sendCore (tr : Transport) (st : ChanState) : ChanState × Nat :=
  if st.writableEnded || st.clientGone then (st, 0)
  else if tr.writeFails st.writeAttempts then
    ({ st with writeAttempts := st.writeAttempts + 1, clientGone := true }, 1)
  else
    ({ st with writeAttempts := st.writeAttempts + 1 }, 1)

/-- `send` as a JS call that could in principle raise: it never does. -/
def sseSend (tr : Transport) (st : ChanState) : Except JsError (ChanState × Nat) :=
  .ok (sendCore tr st)

/-- One tick of the keepalive timer: same guard and same swallow-and-flag
discipline as `send` (the written payload differs, which the model does not
track). -/
def keepaliveCore (tr : Transport) (st : ChanState) : ChanState × Nat :=
  if st.writableEnded || st.clientGone then (st, 0)
  else if tr.writeFails st.writeAttempts then
    ({ st with writeAttempts := st.writeAttempts + 1, clientGone := true }, 1)
  else
    ({ st with writeAttempts := st.writeAttempts + 1 }, 1)

/-- The keepalive tick as a JS call that could in principle raise: it never
does. -/
def sseKeepalive (tr : Transport) (st : ChanState) : Except JsError (ChanState × Nat) :=
  .ok (keepaliveCore tr st)

/-- The `req.on('close')` peer-disconnect notification: sets `clientGone`. -/
def closeNotify (st : ChanState) : ChanState :=
  { st with clientGone := true }

/-- The finally block's close: `if (!res.writableEnded) try { res.end() }
catch {}` — `res.end` marks the stream ended; a raise is swallowed. -/
def finalEndCore (st : ChanState) : ChanState :=
  if st.writableEnded then st else { st with writableEnded := true }

/-- The final close as a JS call that could in principle raise: it never
does, even if the transport is already closed. -/
def finalEndE (st : ChanState) : Except JsError ChanState :=
  .ok (finalEndCore st)

/-- Operations a job may perform on its progress channel. -/
inductive ChanOp where
  | send
  | keepalive
  | closeNotify
  | finalEnd
  deriving DecidableEq, Repr

/-- One channel operation: new state plus number of transport data writes
performed. -/
def chanStep (tr : Transport) (st : ChanState) : ChanOp → ChanState × Nat
  | .send => sendCore tr st
  | .keepalive => keepaliveCore tr st
  | .closeNotify => (closeNotify st, 0)
  | .finalEnd => (finalEndCore st, 0)

/-- Run a sequence of channel operations, collecting per-operation write
counts. -/
def runChanOps (tr : Transport) : ChanState → List ChanOp → ChanState × List Nat
  | st, [] => (st, [])
  | st, op :: rest =>
      let s := chanStep tr st op
      let r := runChanOps tr s.1 rest
      (r.1, s.2 :: r.2)

/-! ## The analyze route handler (meetings.js POST /:id/analyze) -/

/-- The persisted meeting row as far as the analyze handler touches it:
`status`, `error_message`, and the `meeting_results` row. -/
structure Db where
  status : String
  errorMessage : Option String
  hasResult : Bool
  resultMarkdown : Option String
  deriving DecidableEq, Repr

/-- The analyze handler after validation and SSE setup, as a state
transformer on the persisted row and the channel. `progressSends` is the
number of progress events `analyzeRecording` emits through `send` before
finishing; `analysisOutcome` is its result. Mirrors the source's
try/catch/finally: on success the result row and the `completed` status are
persisted *before* the terminal done event is pushed; `send` swallows write
failures, so no transport fault can reach the catch block. -/
def analyzeHandler (tr : Transport) (progressSends : Nat)
    (analysisOutcome : Except JsError String) (db0 : Db) (ch0 : ChanState) :
    Db × ChanState :=
  -- try block: status := 'processing', then send({stage:'Starting',...})
  let db1 : Db := { db0 with status := "processing", errorMessage := none }
  let ch1 := (sendCore tr ch0).1
  -- progress events emitted during analyzeRecording
  let chMid := Nat.rec ch1 (fun _ st => (sendCore tr st).1) progressSends
  match analysisOutcome with
  | .ok md =>
      -- persist result row and 'completed' status, then push the done event
      let db2 : Db := { db1 with hasResult := true, resultMarkdown := some md,
                                 status := "completed" }
      let ch2 := (sendCore tr chMid).1
      (db2, finalEndCore ch2)
  | .error e =>
      -- catch block: persist 'error' + message, then push the error event
      let db2 : Db := { db1 with status := "error", errorMessage := some (jsMessage e) }
      let ch2 := (sendCore tr chMid).1
      (db2, finalEndCore ch2)

/-! ## Helpers: sampleEvenly and trimMetadata (geminiAnalyzer.js) -/

/-- `sampleEvenly(arr, count)`: identity when the array already fits,
otherwise `count` indices spaced by `arr.length / count`, rounded down
(`Math.floor(i * step)`, modelled as exact rational floor `i*len/count`). -/
def sampleEvenly [Inhabited α] (arr : List α) (count : Nat) : List α :=
  if arr.length ≤ count then arr
  else (List.range count).map (fun i => arr.getD (i * arr.length / count) default)

def timelineMarker : List Char := "SPEAKER ACTIVITY TIMELINE".data

def screenshotMarker : List Char := "\n\nSCREENSHOT EVIDENCE".data

/-- The marker appended by the hard byte-truncation fallback. 44 chars. -/
def truncMarker : List Char := "\n\n[... metadata truncated due to length ...]".data

def entryLead : List Char := "- [".data

/-- The count marker replacing the trimmed middle of the timeline. -/
def trimMarkerEntry (entriesLen : Nat) : List Char :=
  ("- [... " ++ Nat.repr (entriesLen - 200) ++ " entries trimmed for brevity ...]").data

/-- `trimMetadata(text, maxLen)`: structural trim of the speaker timeline
section first (keep first/last 100 entries, middle replaced by a count
marker); if the markers are absent, there are ≤ 200 entries, or the
structural result still exceeds `maxLen`, fall back to a hard truncation at
`maxLen` followed by a fixed marker. -/
def trimMetadataL (text : List Char) (maxLen : Nat) : List Char :=
  if text.length ≤ maxLen then text
  else
    let fallback := text.take maxLen ++ truncMarker
    match jsIndexOfL text timelineMarker, jsIndexOfL text screenshotMarker with
    | some ts, some te =>
        let before := text.take ts
        let timeline := (text.drop ts).take (te - ts)
        let after := text.drop te
        let lines := splitNl timeline
        let header := lines.take 3
        let entries := (lines.drop 3).filter (fun l => leadMatch l entryLead)
        if 200 < entries.length then
          let trimmed := entries.take 100 ++ [trimMarkerEntry entries.length] ++
            entries.drop (entries.length - 100)
          let result := before ++ joinNl (header ++ trimmed) ++ after
          if result.length ≤ maxLen then result else fallback
        else fallback
    | _, _ => fallback

/-- `trimMetadata` on strings. -/
def trimMetadata (s : String) (maxLen : Nat) : String :=
  String.mk (trimMetadataL s.data maxLen)

/-- The metadata text actually included in the prompt (runAnalysis step 3):
trimmed input, passed through `trimMetadata _ 100000` when over 100,000
characters. -/
def metaIncluded (metadataText : String) : String :=
  let m := jsTrim metadataText
  if 100000 < m.length then trimMetadata m 100000 else m

/-! ## Payload assembly (runAnalysis) -/

/-- One entry of the multi-modal `parts` array sent to the model. -/
inductive Part where
  | fileData (fileUri mimeType : String)
  | inlineData (mimeType data : String)
  | text (t : String)
  deriving DecidableEq, Repr

/-- Is this the trailing prompt part? -/
def Part.isText : Part → Bool
  | .text _ => true
  | _ => false

/-- Result of a File API staging: `{fileUri, mimeType}`. -/
structure FileRef where
  fileUri : String
  mimeType : String
  deriving DecidableEq, Repr

/-- Deterministic oracles for the effectful edges of one analysis run:
total filesystem reads, an attempt-indexed upload outcome (one
upload-and-poll attempt inside the retry wrapper), an attempt-indexed
model-call outcome per parts list, and the fixed system prompt (whose text
lives in a server constants file not part of the modelled core). -/
structure AnalyzerEnv where
  fsExists : String → Bool
  fsSize : String → Nat
  fsB64 : String → String
  uploadOp : Nat → Except RawErr FileRef
  genOp : List Part → Nat → Except RawErr String
  sysPrompt : String

/-- `audioMimeType || 'audio/webm'`. -/
def orWebm (m : String) : String :=
  if m = "" then "audio/webm" else m

/-- `(size / 1024 / 1024).toFixed(1)` for a byte count (round half up). -/
def mbString (size : Nat) : String :=
  let t := (size * 10 + 524288) / 1048576
  Nat.repr (t / 10) ++ "." ++ Nat.repr (t % 10)

/-- `uploadAudioFile`: the upload-and-poll operation under `withSmartRetry`;
its failures are always `GeminiUserError`s, embedded into `JsError`. -/
def uploadAudioFile (env : AnalyzerEnv) : Except JsError FileRef :=
  match (withSmartRetry env.uploadOp MAX_RETRIES RETRY_BASE_MS).1 with
  | .ok r => .ok r
  | .error gu => .error (.guser gu.type gu.userMessage)

/-- runAnalysis step 1 (audio): inline base64 at ≤ 15 MB, File API staging
above; a failed staging rethrows `GeminiUserError`s, falls back to inline
base64 at ≤ 20 MB otherwise, and raises a plain error beyond that. -/
def audioPartsOf (env : AnalyzerEnv) (audioFilePath : Option String)
    (audioMimeType : String) : Except JsError (List Part) :=
  match audioFilePath with
  | none => .ok []
  | some p =>
      if env.fsExists p then
        let size := env.fsSize p
        if INLINE_LIMIT_BYTES < size then
          match uploadAudioFile env with
          | .ok ref => .ok [Part.fileData ref.fileUri ref.mimeType]
          | .error uploadErr =>
              match uploadErr with
              | .guser t m => .error (.guser t m)
              | .plain m =>
                  if size ≤ 20 * 1024 * 1024 then
                    .ok [Part.inlineData (orWebm audioMimeType) (env.fsB64 p)]
                  else
                    .error (.plain ("Audio upload failed. The file is " ++ mbString size ++
                      " MB — too large for inline fallback. Details: " ++ m))
        else .ok [Part.inlineData (orWebm audioMimeType) (env.fsB64 p)]
      else .ok []

/-- `path.extname` (posix), lowercased by the caller. -/
def extnameL (p : List Char) : List Char :=
  let b := (p.reverse.takeWhile (fun c => ¬ (c = '/'))).reverse
  let revTail := b.reverse.takeWhile (fun c => ¬ (c = '.'))
  if revTail.length = b.length then []
  else if revTail.length + 1 = b.length then []
  else '.' :: revTail.reverse

/-- Image mime selection: `.png` → image/png, anything else → image/jpeg. -/
def mimeOf (p : String) : String :=
  let ext := strToLower (String.mk (extnameL p.data))
  if ext = ".png" then "image/png" else "image/jpeg"

/-- runAnalysis step 2 loop body over the sampled image list: skip images
over 1.5 MB, otherwise push an inline part (reads modelled total). -/
def imagePartsOf (env : AnalyzerEnv) (imgs : List String) : List Part :=
  imgs.filterMap (fun p =>
    if MAX_IMAGE_BYTES < env.fsSize p then none
    else some (Part.inlineData (mimeOf p) (env.fsB64 p)))

/-- runAnalysis step 2: filter to existing files, sample evenly to the
40-image cap, then build the inline image parts. -/
def imageStage (env : AnalyzerEnv) (imagePaths : List String) : List Part :=
  imagePartsOf env (sampleEvenly (imagePaths.filter (fun p => env.fsExists p)) MAX_SCREENSHOTS)

/-- runAnalysis step 3: the free-text prompt. -/
def promptOf (env : AnalyzerEnv) (audioPresent : Bool) (imageCount : Nat)
    (metadataText : String) : String :=
  let p1 := env.sysPrompt ++ "\n\n"
  let p2 := if jsTrim metadataText = "" then p1
            else p1 ++ "Meeting Context / Transcript:\n\n" ++ metaIncluded metadataText ++ "\n\n"
  let p3 := if audioPresent then p2 ++ "Please analyze the provided audio/video recording above.\n"
            else p2
  let p4 := if imageCount = 0 then p3
            else p3 ++ Nat.repr imageCount ++
              " screenshot/participant image(s) have been provided for speaker identification.\n"
  p4 ++ "\nPlease provide the full meeting analysis in the exact format specified."

/-- `audioFilePath && fs.existsSync(audioFilePath)`. -/
def audioPresentB (env : AnalyzerEnv) (audioFilePath : Option String) : Bool :=
  match audioFilePath with
  | some p => env.fsExists p
  | none => false

/-- runAnalysis steps 1–3: the ordered parts array (audio part if any,
then image parts, then exactly one trailing text part). -/
def buildParts (env : AnalyzerEnv) (audioFilePath : Option String)
    (audioMimeType metadataText : String) (imagePaths : List String) :
    Except JsError (List Part) :=
  match audioPartsOf env audioFilePath audioMimeType with
  | .error e => .error e
  | .ok audioParts =>
      let imgParts := imageStage env imagePaths
      let prompt := promptOf env (audioPresentB env audioFilePath) imgParts.length metadataText
      .ok (audioParts ++ imgParts ++ [Part.text prompt])

/-- `runAnalysis`: assemble the parts, then call the model under
`withSmartRetry` (the retry wrapper's failures are `GeminiUserError`s). -/
def runAnalysisM (env : AnalyzerEnv) (audioFilePath : Option String)
    (audioMimeType metadataText : String) (imagePaths : List String) :
    Except JsError String :=
  match buildParts env audioFilePath audioMimeType metadataText imagePaths with
  | .error e => .error e
  | .ok parts =>
      match (withSmartRetry (env.genOp parts) MAX_RETRIES RETRY_BASE_MS).1 with
      | .ok t => .ok t
      | .error gu => .error (.guser gu.type gu.userMessage)

/-! ## Fallback controller (analyzeRecording) -/

/-- One fallback strategy: its image subset and label. -/
structure Strategy where
  imgs : List String
  label : String
  deriving DecidableEq, Repr

/-- The fixed strategy order: full images → evenly-subsampled half → none. -/
def strategiesOf (imagePaths : List String) : List Strategy :=
  [⟨imagePaths, "Full"⟩,
   ⟨sampleEvenly imagePaths ((imagePaths.length + 1) / 2), "Reduced images (50%)"⟩,
   ⟨[], "Audio only"⟩]

/-- Message patterns marking a capacity-shaped failure (case-sensitive, as
in the source). -/
def capacityPatterns (m : String) : Bool :=
  strHas m "RESOURCE_EXHAUSTED" || strHas m "token" || strHas m "too large" ||
  strHas m "exceeds" || strHas m "context length"

/-- `isCapacityError` in the strategy loop's catch block: CONTEXT_OVERFLOW
or SERVER_ERROR kind, or a capacity-shaped message. -/
def isCapacityError : JsError → Bool
  | .guser t m => t = .CONTEXT_OVERFLOW || t = .SERVER_ERROR || capacityPatterns m
  | .plain m => capacityPatterns m

/-- The `nonRetryableTypes` list checked for `GeminiUserError`s. -/
def isNonRetryableType (t : ErrType) : Bool :=
  t = .QUOTA_EXHAUSTED || t = .AUTH_ERROR || t = .KEY_LEAKED || t = .BILLING_REQUIRED ||
  t = .DEADLINE_EXCEEDED || t = .FILE_EXPIRED || t = .INVALID_REQUEST

/-- `err instanceof GeminiUserError && nonRetryableTypes.includes(err.type)`. -/
def isNonRetryableUserError : JsError → Bool
  | .guser t _ => isNonRetryableType t
  | .plain _ => false

/-- The final re-raise after the loop: a `GeminiUserError` is rethrown
unchanged, anything else is classified and wrapped. -/
def finalRaise : Option JsError → Except JsError String
  | some (.guser t m) => .error (.guser t m)
  | some (.plain m) =>
      let c := classifyGeminiError ⟨none, m⟩
      .error (.guser c.type c.userMessage)
  | none =>
      let c := classifyGeminiError ⟨none, ""⟩
      .error (.guser c.type c.userMessage)

/-- The strategy loop of `analyzeRecording`. The second component records
the labels of the strategies attempted, in order (observational
instrumentation for the fallback-chain properties). Catch logic: rethrow
non-retryable user-facing errors immediately; continue to the next strategy
only on capacity-shaped errors; otherwise break and re-raise at the
bottom. -/
def strategyLoop (run : List String → Except JsError String) :
    List Strategy → Option JsError → Except JsError String × List String
  | [], lastErr => (finalRaise lastErr, [])
  | s :: rest, _lastErr =>
      match run s.imgs with
      | .ok r => (.ok r, [s.label])
      | .error err =>
          if isNonRetryableUserError err then (.error err, [s.label])
          else if isCapacityError err then
            let next := strategyLoop run rest (some err)
            (next.1, s.label :: next.2)
          else (finalRaise (some err), [s.label])

/-- `analyzeRecording`: the public entry point (progress emission aside):
require an API key, then run the strategy chain over `runAnalysis`. -/
def analyzeRecordingM (env : AnalyzerEnv) (audioFilePath : Option String)
    (audioMimeType metadataText : String) (imagePaths : List String)
    (hasApiKey : Bool) : Except JsError String × List String :=
  if hasApiKey then
    strategyLoop (fun imgs => runAnalysisM env audioFilePath audioMimeType metadataText imgs)
      (strategiesOf imagePaths) none
  else
    (.error (.plain "Gemini API key is not configured. Please add it in Settings."), [])

/-! ## Concrete environments for witness scenarios -/

/-- Scenario environment: the model call fails with a 500 (capacity-shaped)
error on the 3-part full payload and succeeds on the 2-part reduced
payload. -/
def c6Env : AnalyzerEnv :=
  { fsExists := fun _ => true
    fsSize := fun _ => 0
    fsB64 := fun _ => ""
    uploadOp := fun _ => .error ⟨none, ""⟩
    genOp := fun parts _ =>
      if parts.length = 3 then .error ⟨some 500, "boom"⟩ else .ok "half-result"
    sysPrompt := "SYS" }

/-- Scenario environment: the model call always fails with a 403
permission error (non-retryable, not capacity-shaped). -/
def c7Env : AnalyzerEnv :=
  { fsExists := fun _ => true
    fsSize := fun _ => 0
    fsB64 := fun _ => ""
    uploadOp := fun _ => .error ⟨none, ""⟩
    genOp := fun _ _ => .error ⟨some 403, "permission denied"⟩
    sysPrompt := "SYS" }

/-- Scenario environment: trivial filesystem, all reads succeed. -/
def c9Env : AnalyzerEnv :=
  { fsExists := fun _ => true
    fsSize := fun _ => 0
    fsB64 := fun _ => ""
    uploadOp := fun _ => .error ⟨none, ""⟩
    genOp := fun _ _ => .ok "done"
    sysPrompt := "SYS" }

/-- Scenario environment for the image-recap scenario: every file exists
and is small. -/
def c10Env : AnalyzerEnv :=
  { fsExists := fun _ => true
    fsSize := fun _ => 0
    fsB64 := fun _ => ""
    uploadOp := fun _ => .error ⟨none, ""⟩
    genOp := fun _ _ => .ok "done"
    sysPrompt := "SYS" }

/-- 80 distinct image paths. -/
def c10Paths : List String :=
  (List.range 80).map (fun i => Nat.repr i)

/-! ## Lemmas: progress channel -/

/-- Once writing is shut off, any single channel operation keeps it shut off
and performs no transport data write. -/
theorem chanStep_flagged (tr : Transport) (st : ChanState) (op : ChanOp)
    (h : flagged st = true) :
    flagged (chanStep tr st op).1 = true ∧ (chanStep tr st op).2 = 0 := by
  have h' : (st.writableEnded || st.clientGone) = true := h
  cases op
  case send => simp [chanStep, sendCore, h', flagged, h]
  case keepalive => simp [chanStep, keepaliveCore, h', flagged, h]
  case closeNotify => simp [chanStep, closeNotify, flagged]
  case finalEnd =>
    by_cases hw : st.writableEnded <;>
      simp [chanStep, finalEndCore, hw, flagged, h']

/-- Once writing is shut off, a whole sequence of channel operations
performs zero transport data writes. -/
theorem runChanOps_flagged (tr : Transport) :
    ∀ (ops : List ChanOp) (st : ChanState), flagged st = true →
      (runChanOps tr st ops).2 = List.replicate ops.length 0 := by
  intro ops
  induction ops with
  | nil => intro st _; simp [runChanOps]
  | cons op rest ih =>
      intro st h
      have hs := chanStep_flagged tr st op h
      simp [runChanOps, hs.2, ih _ hs.1, List.replicate_succ]

/-! ## Lemmas: substring search -/

/-- The empty needle occurs in every haystack. -/
theorem hasSub_nil_needle (l : List Char) : hasSub l [] = true := by
  cases l <;> simp [hasSub, leadMatch, List.isEmpty]

/-- A needle matches at the head of itself followed by anything. -/
theorem leadMatch_self_append (nee v : List Char) : leadMatch (nee ++ v) nee = true := by
  induction nee with
  | nil => cases v <;> simp [leadMatch]
  | cons a as ih => simp [leadMatch, ih]

/-- A needle occurs in itself followed by anything. -/
theorem hasSub_self_append (nee v : List Char) : hasSub (nee ++ v) nee = true := by
  cases nee with
  | nil => exact hasSub_nil_needle _
  | cons c t =>
      have hm := leadMatch_self_append (c :: t) v
      simp only [List.cons_append] at hm
      simp [hasSub, hm]

/-- Occurrence in the right part extends to the whole concatenation. -/
theorem hasSub_append_right (xs ys nee : List Char) (h : hasSub ys nee = true) :
    hasSub (xs ++ ys) nee = true := by
  induction xs with
  | nil => exact h
  | cons c t ih => simp [hasSub, ih]

/-- Concatenation of strings concatenates their character lists. -/
theorem strData_append (s t : String) : (s ++ t).data = s.data ++ t.data := rfl

/-- String-level: occurrence in the right summand. -/
theorem strHas_append_right (x y nee : String) (h : strHas y nee = true) :
    strHas (x ++ y) nee = true := by
  show hasSub (x ++ y).data nee.data = true
  rw [strData_append]
  exact hasSub_append_right _ _ _ h

/-- The fatal inline-fallback message always contains "too large". -/
theorem tooLargeMsg_hasSub (s det : String) :
    strHas ("Audio upload failed. The file is " ++ s ++
      " MB — too large for inline fallback. Details: " ++ det) "too large" = true := by
  show hasSub ("Audio upload failed. The file is " ++ s ++
      " MB — too large for inline fallback. Details: " ++ det).data "too large".data = true
  have hd : ("Audio upload failed. The file is " ++ s ++
      " MB — too large for inline fallback. Details: " ++ det).data =
      "Audio upload failed. The file is ".data ++ s.data ++
      " MB — too large for inline fallback. Details: ".data ++ det.data := rfl
  rw [hd]
  have hlit : (" MB — too large for inline fallback. Details: ").data =
      (" MB — ").data ++ ("too large").data ++ (" for inline fallback. Details: ").data := by decide
  rw [hlit]
  simp only [List.append_assoc]
  apply hasSub_append_right
  apply hasSub_append_right
  apply hasSub_append_right
  exact hasSub_self_append _ _

/-! ## Lemmas: even sampling -/

/-- `sampleEvenly` returns `min length count` elements. -/
theorem sampleEvenly_length {α : Type} [Inhabited α] (l : List α) (c : Nat) :
    (sampleEvenly l c).length = min l.length c := by
  unfold sampleEvenly
  split
  case isTrue h => exact (Nat.min_eq_left h).symm
  case isFalse h => simp; omega

/-- `sampleEvenly` only returns elements of its input. -/
theorem sampleEvenly_mem {α : Type} [Inhabited α] {l : List α} {c : Nat} {x : α}
    (hx : x ∈ sampleEvenly l c) : x ∈ l := by
  unfold sampleEvenly at hx
  split at hx
  · exact hx
  case isFalse h =>
    simp only [List.mem_map, List.mem_range] at hx
    obtain ⟨i, hi, rfl⟩ := hx
    have hl : 0 < l.length := by omega
    have h1 : i * l.length < c * l.length := (mul_lt_mul_right hl).mpr hi
    have hlen : i * l.length / c < l.length := Nat.div_lt_of_lt_mul h1
    rw [List.getD_eq_getElem l default hlen]
    exact List.getElem_mem hlen

/-! ## Lemmas: image parts -/

/-- When no image exceeds the per-image cap, every sampled image yields one
part. -/
theorem imagePartsOf_length (env : AnalyzerEnv) :
    ∀ (imgs : List String), (∀ p ∈ imgs, env.fsSize p ≤ MAX_IMAGE_BYTES) →
      (imagePartsOf env imgs).length = imgs.length := by
  intro imgs
  induction imgs with
  | nil => intro _; rfl
  | cons p rest ih =>
      intro h
      have hp : ¬ (MAX_IMAGE_BYTES < env.fsSize p) := by
        have := h p (by simp)
        omega
      have ihr := ih (fun q hq => h q (by simp [hq]))
      simp [imagePartsOf, hp] at ihr ⊢
      exact ihr

/-- Every image part is inline with mime image/png or image/jpeg. -/
theorem imagePartsOf_mem {env : AnalyzerEnv} {imgs : List String} {q : Part}
    (h : q ∈ imagePartsOf env imgs) :
    ∃ mime dat, q = Part.inlineData mime dat ∧
      (mime = "image/png" ∨ mime = "image/jpeg") := by
  unfold imagePartsOf at h
  rw [List.mem_filterMap] at h
  obtain ⟨p, _, hp⟩ := h
  by_cases hsz : MAX_IMAGE_BYTES < env.fsSize p
  · simp [hsz] at hp
  · simp [hsz] at hp
    refine ⟨mimeOf p, env.fsB64 p, hp.symm, ?_⟩
    by_cases hext : strToLower (String.mk (extnameL p.data)) = ".png"
    · simp [mimeOf, hext]
    · simp [mimeOf, hext]

/-! ## Lemmas: audio parts -/

/-- The audio stage yields at most one part, and never a text part. -/
theorem audioPartsOf_shape {env : AnalyzerEnv} {a : Option String} {am : String}
    {l : List Part} (h : audioPartsOf env a am = .ok l) :
    l = [] ∨ (∃ u mm, l = [Part.fileData u mm]) ∨ (∃ mm d, l = [Part.inlineData mm d]) := by
  cases a with
  | none =>
      simp only [audioPartsOf] at h
      cases h
      exact Or.inl rfl
  | some p =>
      simp only [audioPartsOf] at h
      split at h
      · split at h
        · split at h
          · cases h; exact Or.inr (Or.inl ⟨_, _, rfl⟩)
          · split at h
            · cases h
            · split at h
              · cases h; exact Or.inr (Or.inr ⟨_, _, rfl⟩)
              · cases h
        · cases h; exact Or.inr (Or.inr ⟨_, _, rfl⟩)
      · cases h; exact Or.inl rfl

/-- A plain (non-GeminiUserError) failure of the audio stage always carries
a "too large" message. -/
theorem audioPartsOf_plain_msg {env : AnalyzerEnv} {a : Option String} {am m : String}
    (h : audioPartsOf env a am = .error (.plain m)) : strHas m "too large" = true := by
  cases a with
  | none =>
      simp only [audioPartsOf] at h
      cases h
  | some p =>
      simp only [audioPartsOf] at h
      split at h
      · split at h
        · split at h
          · cases h
          · split at h
            · cases h
            · split at h
              · cases h
              · injection h with h2
                injection h2 with h3
                rw [← h3]
                exact tooLargeMsg_hasSub _ _
        · cases h
      · cases h

/-! ## Lemmas: runAnalysis error shape -/

/-- A `buildParts` failure is an audio-stage failure. -/
theorem buildParts_error {env : AnalyzerEnv} {a : Option String} {am mt : String}
    {ps : List String} {e : JsError}
    (h : buildParts env a am mt ps = .error e) : audioPartsOf env a am = .error e := by
  unfold buildParts at h
  cases ha : audioPartsOf env a am with
  | error e2 => rw [ha] at h; cases h; rfl
  | ok l => rw [ha] at h; cases h

/-- A plain (non-GeminiUserError) failure of one full analysis run is
always capacity-shaped. -/
theorem runAnalysisM_plain_capacity {env : AnalyzerEnv} {a : Option String}
    {am mt m : String} {ps : List String}
    (h : runAnalysisM env a am mt ps = .error (.plain m)) :
    isCapacityError (.plain m) = true := by
  cases hb : buildParts env a am mt ps with
  | error e =>
      simp only [runAnalysisM, hb] at h
      cases h
      have hmsg := audioPartsOf_plain_msg (buildParts_error hb)
      simp [isCapacityError, capacityPatterns, hmsg]
  | ok parts =>
      simp only [runAnalysisM, hb] at h
      cases hw : (withSmartRetry (env.genOp parts) MAX_RETRIES RETRY_BASE_MS).1 with
      | ok t => rw [hw] at h; cases h
      | error gu => rw [hw] at h; cases h

/-! ## Lemmas: strategy loop -/

/-- The labels of the strategies attempted are always an in-order prefix of
the configured strategy labels. -/
theorem strategyLoop_labels_inorder (run : List String → Except JsError String) :
    ∀ (ss : List Strategy) (le : Option JsError),
      ∃ rest, (strategyLoop run ss le).2 ++ rest = ss.map Strategy.label := by
  intro ss
  induction ss with
  | nil => intro _; exact ⟨[], rfl⟩
  | cons s rest ih =>
      intro le
      cases hr : run s.imgs with
      | ok r => exact ⟨rest.map Strategy.label, by simp [strategyLoop, hr]⟩
      | error err =>
          by_cases h1 : isNonRetryableUserError err = true
          · exact ⟨rest.map Strategy.label, by simp [strategyLoop, hr, h1]⟩
          · rw [Bool.not_eq_true] at h1
            by_cases h2 : isCapacityError err = true
            · obtain ⟨r2, hr2⟩ := ih (some err)
              exact ⟨r2, by simp [strategyLoop, hr, h1, h2, hr2]⟩
            · rw [Bool.not_eq_true] at h2
              exact ⟨rest.map Strategy.label, by simp [strategyLoop, hr, h1, h2]⟩

/-! ## Lemmas: metadata trimming -/

/-- The hard-truncation marker is 44 characters long. -/
theorem truncMarker_length : truncMarker.length = 44 := by decide

/-- `trimMetadata` output never exceeds `maxLen` plus the 44-character
truncation marker. -/
theorem trimMetadataL_length (text : List Char) (maxLen : Nat) :
    (trimMetadataL text maxLen).length ≤ maxLen + 44 := by
  have hm := truncMarker_length
  have hfb : (text.take maxLen ++ truncMarker).length ≤ maxLen + 44 := by
    simp only [List.length_append, List.length_take, hm]
    omega
  unfold trimMetadataL
  split
  case isTrue h => omega
  case isFalse h =>
    split
    · dsimp only
      split
      case isTrue h2 =>
        split
        case isTrue h3 => omega
        case isFalse h3 => exact hfb
      case isFalse h2 => exact hfb
    · exact hfb

/-- Length of a packed string is the length of its character list. -/
theorem strLength_mk (l : List Char) : (String.mk l).length = l.length := rfl

/-- `trimMetadata` computes through `trimMetadataL`. -/
theorem trimMetadata_length_eq (s : String) (m : Nat) :
    (trimMetadata s m).length = (trimMetadataL s.data m).length := rfl

/-- `dropWhile` of whitespace leaves a run of `'a'`s unchanged. -/
theorem dropWhile_ws_replicate (n : Nat) :
    (List.replicate n 'a').dropWhile jsIsWs = List.replicate n 'a' := by
  cases n with
  | zero => rfl
  | succ k =>
      have hws : jsIsWs 'a' = false := by decide
      simp [List.replicate_succ, List.dropWhile_cons, hws]

/-- JS trim leaves a run of `'a'`s unchanged. -/
theorem jsTrimL_replicate (n : Nat) :
    jsTrimL (List.replicate n 'a') = List.replicate n 'a' := by
  unfold jsTrimL
  rw [dropWhile_ws_replicate, List.reverse_replicate, dropWhile_ws_replicate,
    List.reverse_replicate]

/-- A needle starting with anything but `'a'` never occurs in a run of
`'a'`s. -/
theorem idxAux_replicate_none (c : Char) (tail : List Char) (hc : ¬ c = 'a') :
    ∀ (n i : Nat), idxAux (c :: tail) (List.replicate n 'a') i = none := by
  intro n
  have hc' : ¬ ('a' = c) := fun h => hc h.symm
  induction n with
  | zero => intro i; simp [idxAux, leadMatch]
  | succ k ih =>
      intro i
      simp [List.replicate_succ, idxAux, leadMatch, hc', ih]

/-- `indexOf` of such a needle in a run of `'a'`s is -1. -/
theorem jsIndexOf_replicate_none (c : Char) (tail : List Char) (hc : ¬ c = 'a')
    (n : Nat) : jsIndexOfL (List.replicate n 'a') (c :: tail) = none :=
  idxAux_replicate_none c tail hc n 0

/-- A retry emission is always an `emitted` event, whatever the
classification. -/
theorem retryEmit_isEmitted (c : Classification) (a m w : Nat) :
    ∃ s d, retryEmit c a m w = .emitted s d := by
  unfold retryEmit
  split
  · exact ⟨_, _, rfl⟩
  · exact ⟨_, _, rfl⟩

/-! ## Claim theorems -/

/-- C1: for every analysis job whose model call succeeds, after the result
row and the `completed` status have been persisted, no behaviour of the
transport — including a write failure while pushing the terminal done
event — changes the persisted status: it remains `completed` (never
flipped to `error`), and the result row remains in place. Quantified over
every transport failure pattern `tr`, every number of prior progress
events, and every starting state. -/
theorem completed_not_overwritten_by_transport_failure
    (tr : Transport) (k : Nat) (md : String) (db0 : Db) (ch0 : ChanState) :
    (analyzeHandler tr k (.ok md) db0 ch0).1.status = "completed" ∧
    (analyzeHandler tr k (.ok md) db0 ch0).1.hasResult = true ∧
    (analyzeHandler tr k (.ok md) db0 ch0).1.resultMarkdown = some md ∧
    (analyzeHandler tr k (.ok md) db0 ch0).1.errorMessage = none := by
  simp [analyzeHandler]

/-- C2: progress-channel safety: (1) `send`, `keepalive` and the final close
never raise, whatever the transport does; (2) an attempted write that fails
flips the peer-gone flag, the peer-disconnect notification sets the same
flag, and the final close marks the stream ended; (3) once any of those
flags is set, every subsequent operation — in particular every `send` and
`keepalive` — performs zero transport writes; (4) the final close is
idempotent. -/
theorem progress_channel_safety (tr : Transport) (st : ChanState) (ops : List ChanOp) :
    (∃ r, sseSend tr st = .ok r) ∧
    (∃ r, sseKeepalive tr st = .ok r) ∧
    (∃ r, finalEndE st = .ok r) ∧
    (flagged st = false → tr.writeFails st.writeAttempts = true →
      (sendCore tr st).1.clientGone = true ∧ (keepaliveCore tr st).1.clientGone = true) ∧
    flagged (closeNotify st) = true ∧
    (finalEndCore st).writableEnded = true ∧
    (flagged st = true → (runChanOps tr st ops).2 = List.replicate ops.length 0) ∧
    finalEndCore (finalEndCore st) = finalEndCore st := by
  refine ⟨⟨_, rfl⟩, ⟨_, rfl⟩, ⟨_, rfl⟩, ?_, ?_, ?_, fun h => runChanOps_flagged tr ops st h, ?_⟩
  · intro hfl hw
    have h1 : st.writableEnded = false := by
      simp [flagged] at hfl; exact hfl.1
    have h2 : st.clientGone = false := by
      simp [flagged] at hfl; exact hfl.2
    constructor <;> simp [sendCore, keepaliveCore, h1, h2, hw]
  · simp [flagged, closeNotify]
  · by_cases h : st.writableEnded <;> simp [finalEndCore, h]
  · by_cases h : st.writableEnded <;> simp [finalEndCore, h]

/-- C2 witness: with an always-failing transport and the peer already gone,
two subsequent channel operations perform zero transport writes. -/
theorem progress_channel_safety_witness :
    (runChanOps ⟨fun _ => true⟩ ⟨false, true, 0⟩ [.send, .keepalive]).2 = [0, 0] := by
  have h := progress_channel_safety ⟨fun _ => true⟩ ⟨false, true, 0⟩ [.send, .keepalive]
  simpa using h.2.2.2.2.2.2.1 (by decide)

/-- C3: an operation whose failures always classify as non-retryable is
invoked exactly once by the retry wrapper, with no wait and no retry
emission, and the wrapper raises immediately a user-facing error carrying
the classification's message and kind. -/
theorem retry_nonretryable_single_attempt {α : Type} (op : Nat → Except RawErr α)
    (errOf : Nat → RawErr) (m b : Nat) (hm : 1 ≤ m)
    (hop : ∀ k, op k = .error (errOf k))
    (hnr : ∀ k, (classifyGeminiError (errOf k)).retryable = false) :
    withSmartRetry op m b =
      (.error ⟨(classifyGeminiError (errOf 1)).userMessage,
               (classifyGeminiError (errOf 1)).type⟩, [.invoke 1]) ∧
    invokeCount (withSmartRetry op m b).2 = 1 ∧
    waitCount (withSmartRetry op m b).2 = 0 := by
  obtain ⟨f, rfl⟩ : ∃ f, m = f + 1 := ⟨m - 1, by omega⟩
  have h1 : withSmartRetry op (f + 1) b =
      (.error ⟨(classifyGeminiError (errOf 1)).userMessage,
               (classifyGeminiError (errOf 1)).type⟩, [.invoke 1]) := by
    simp [withSmartRetry, smartRetryGo, hop 1, hnr 1]
  refine ⟨h1, ?_, ?_⟩ <;> rw [h1] <;> rfl

/-- C3 witness: an operation always failing with a 403 permission error is
called once and the AUTH_ERROR classification is raised immediately. -/
theorem retry_nonretryable_single_attempt_witness :
    withSmartRetry (fun _ => (Except.error ⟨some 403, "nope"⟩ : Except RawErr Nat)) 3 3000 =
      (.error ⟨authErrorMsg, .AUTH_ERROR⟩, [.invoke 1]) := by
  have hone : (classifyGeminiError ⟨some 403, "nope"⟩).retryable = false := by decide
  have h := (retry_nonretryable_single_attempt
    (fun _ => (Except.error ⟨some 403, "nope"⟩ : Except RawErr Nat))
    (fun _ => ⟨some 403, "nope"⟩) 3 3000 (by omega) (fun _ => rfl) (fun _ => hone)).1
  rw [h]
  have hcl : classifyGeminiError ⟨some 403, "nope"⟩ =
      ⟨.AUTH_ERROR, false, none, authErrorMsg⟩ := by decide
  simp [hcl]

/-- C4: an operation that raises a retryable-classified error on every
attempt, run with `maxAttempts = 3`: invoked exactly 3 times; between
consecutive attempts the wrapper waits the classification's wait hint when
present and otherwise `baseMs * 2^(attempt-1)`, reporting each wait through
the progress callback before sleeping; after the third failure it raises
the last error's classification message as a user-facing error; and in the
default (no wait hint) case the two delays are strictly increasing. -/
theorem retry_retryable_three_attempts {α : Type} (op : Nat → Except RawErr α)
    (errOf : Nat → RawErr) (b : Nat)
    (hop : ∀ k, op k = .error (errOf k))
    (hr : ∀ k, (classifyGeminiError (errOf k)).retryable = true) :
    withSmartRetry op 3 b =
      (.error ⟨(classifyGeminiError (errOf 3)).userMessage,
               (classifyGeminiError (errOf 3)).type⟩,
       [.invoke 1,
        retryEmit (classifyGeminiError (errOf 1)) 1 3
          ((classifyGeminiError (errOf 1)).waitMs.getD (b * 2 ^ (1 - 1))),
        .wait ((classifyGeminiError (errOf 1)).waitMs.getD (b * 2 ^ (1 - 1))),
        .invoke 2,
        retryEmit (classifyGeminiError (errOf 2)) 2 3
          ((classifyGeminiError (errOf 2)).waitMs.getD (b * 2 ^ (2 - 1))),
        .wait ((classifyGeminiError (errOf 2)).waitMs.getD (b * 2 ^ (2 - 1))),
        .invoke 3]) ∧
    invokeCount (withSmartRetry op 3 b).2 = 3 ∧
    waitCount (withSmartRetry op 3 b).2 = 2 ∧
    ((classifyGeminiError (errOf 1)).waitMs = none →
      (classifyGeminiError (errOf 2)).waitMs = none → 0 < b →
      (classifyGeminiError (errOf 1)).waitMs.getD (b * 2 ^ (1 - 1)) <
      (classifyGeminiError (errOf 2)).waitMs.getD (b * 2 ^ (2 - 1))) := by
  have h1 : withSmartRetry op 3 b =
      (.error ⟨(classifyGeminiError (errOf 3)).userMessage,
               (classifyGeminiError (errOf 3)).type⟩,
       [.invoke 1,
        retryEmit (classifyGeminiError (errOf 1)) 1 3
          ((classifyGeminiError (errOf 1)).waitMs.getD (b * 2 ^ (1 - 1))),
        .wait ((classifyGeminiError (errOf 1)).waitMs.getD (b * 2 ^ (1 - 1))),
        .invoke 2,
        retryEmit (classifyGeminiError (errOf 2)) 2 3
          ((classifyGeminiError (errOf 2)).waitMs.getD (b * 2 ^ (2 - 1))),
        .wait ((classifyGeminiError (errOf 2)).waitMs.getD (b * 2 ^ (2 - 1))),
        .invoke 3]) := by
    simp [withSmartRetry, smartRetryGo, hop 1, hop 2, hop 3, hr 1, hr 2, hr 3]
  obtain ⟨s1, d1, he1⟩ := retryEmit_isEmitted (classifyGeminiError (errOf 1)) 1 3
    ((classifyGeminiError (errOf 1)).waitMs.getD (b * 2 ^ (1 - 1)))
  obtain ⟨s2, d2, he2⟩ := retryEmit_isEmitted (classifyGeminiError (errOf 2)) 2 3
    ((classifyGeminiError (errOf 2)).waitMs.getD (b * 2 ^ (2 - 1)))
  refine ⟨h1, ?_, ?_, ?_⟩
  · rw [h1, he1, he2]; rfl
  · rw [h1, he1, he2]; rfl
  · intro hn1 hn2 hb
    simp only [hn1, hn2, Option.getD]
    have hp1 : (2:Nat) ^ (1 - 1) = 1 := by norm_num
    have hp2 : (2:Nat) ^ (2 - 1) = 2 := by norm_num
    rw [hp1, hp2]
    omega

/-- C4 witness: a 503-classified failure on every attempt with
`maxAttempts = 3` and base 3000 ms: three invocations, two fixed 10 s waits
each reported through the callback, and the SERVICE_UNAVAILABLE message
raised after the third failure. -/
theorem retry_retryable_three_attempts_witness :
    withSmartRetry (fun _ => (Except.error ⟨some 503, "down"⟩ : Except RawErr Nat)) 3 3000 =
      (.error ⟨unavailableMsg, .SERVICE_UNAVAILABLE⟩,
       [.invoke 1, .emitted "Retrying" "Attempt 2/3 in 10s...", .wait 10000,
        .invoke 2, .emitted "Retrying" "Attempt 3/3 in 10s...", .wait 10000,
        .invoke 3]) := by
  have hone : (classifyGeminiError ⟨some 503, "down"⟩).retryable = true := by decide
  have h := (retry_retryable_three_attempts
    (fun _ => (Except.error ⟨some 503, "down"⟩ : Except RawErr Nat))
    (fun _ => ⟨some 503, "down"⟩) 3000 (fun _ => rfl) (fun _ => hone)).1
  rw [h]
  have hcl : classifyGeminiError ⟨some 503, "down"⟩ =
      ⟨.SERVICE_UNAVAILABLE, true, some 10000, unavailableMsg⟩ := by decide
  simp [hcl, retryEmit]
  exact ⟨by decide, by decide⟩

/-- C5: every raw error signalling 429 (explicit status 429, or a 429 or
RESOURCE_EXHAUSTED token in the message): with a quota/daily-limit signal
in the message (the source's signal set is quota / daily / per day /
exhausted, matched case-insensitively) the classifier returns
QUOTA_EXHAUSTED, not retryable, with no wait hint; otherwise it returns
RATE_LIMITED, retryable, with the fixed 65 s wait hint — tens of seconds,
distinct from the 3 s default backoff base. -/
theorem classify_429_classification (e : RawErr)
    (h429 : e.status = some 429 ∨ strHas e.msg "429" = true ∨
      strHas (strToLower e.msg) "resource_exhausted" = true) :
    (quotaSignal (strToLower e.msg) = true →
      (classifyGeminiError e).type = .QUOTA_EXHAUSTED ∧
      (classifyGeminiError e).retryable = false ∧
      (classifyGeminiError e).waitMs = none) ∧
    (quotaSignal (strToLower e.msg) = false →
      (classifyGeminiError e).type = .RATE_LIMITED ∧
      (classifyGeminiError e).retryable = true ∧
      (classifyGeminiError e).waitMs = some RATE_LIMIT_WAIT_MS ∧
      10000 ≤ RATE_LIMIT_WAIT_MS ∧ RATE_LIMIT_WAIT_MS ≠ RETRY_BASE_MS) := by
  have hc : is429Cond (match e.status with
      | some s => some s
      | none => extractHttpStatus e.msg) e.msg (strToLower e.msg) = true := by
    rcases h429 with h | h | h
    · simp [is429Cond, h]
    · simp [is429Cond, h]
    · simp [is429Cond, h]
  constructor <;> intro hq <;>
    simp [classifyGeminiError, hc, hq, RATE_LIMIT_WAIT_MS, RETRY_BASE_MS]

/-- C6: for every job where the full-images strategy fails with a
capacity-shaped error (that is not of a non-retryable user-facing kind —
the source rethrows those before the capacity test, per the spec's §4.5
precedence) and the half-images strategy succeeds, the result equals the
half-images run's output and the no-images strategy is never attempted.
Moreover, in general, the attempted strategies are always an in-order
prefix of full → half → none, and the loop returns on the first success. -/
theorem fallback_half_success (env : AnalyzerEnv) (a : Option String) (am mt : String)
    (ps : List String) (e : JsError) (r : String)
    (hnru : isNonRetryableUserError e = false)
    (hcap : isCapacityError e = true)
    (hfull : runAnalysisM env a am mt ps = .error e)
    (hhalf : runAnalysisM env a am mt (sampleEvenly ps ((ps.length + 1) / 2)) = .ok r) :
    analyzeRecordingM env a am mt ps true = (.ok r, ["Full", "Reduced images (50%)"]) ∧
    (∀ (run : List String → Except JsError String) (qs : List String),
      ∃ rest, (strategyLoop run (strategiesOf qs) none).2 ++ rest =
        ["Full", "Reduced images (50%)", "Audio only"]) ∧
    (∀ (run : List String → Except JsError String) (qs : List String) (r2 : String),
      run qs = .ok r2 → strategyLoop run (strategiesOf qs) none = (.ok r2, ["Full"])) := by
  refine ⟨?_, ?_, ?_⟩
  · simp [analyzeRecordingM, strategiesOf, strategyLoop, hfull, hhalf, hnru, hcap]
  · intro run qs
    simpa using strategyLoop_labels_inorder run (strategiesOf qs) none
  · intro run qs r2 hok
    simp [strategyLoop, strategiesOf, hok]

/-- C6 witness: two images, a 500-classified (capacity-shaped) failure on
the 3-part full payload and success on the 2-part half payload: the result
is the half run's output and only two strategies are attempted. -/
theorem fallback_half_success_witness :
    analyzeRecordingM c6Env none "" "" ["a", "b"] true =
      (.ok "half-result", ["Full", "Reduced images (50%)"]) :=
  (fallback_half_success c6Env none "" "" ["a", "b"]
    (.guser .SERVER_ERROR serverErrorMsg) "half-result"
    (by decide) (by decide) rfl rfl).1

/-- C7: for every job where the first (full-images) strategy fails with an
error that is not capacity-shaped, the fallback controller attempts no
further strategy — exactly one strategy label is recorded — and the original
error propagates out unchanged. -/
theorem fallback_noncapacity_stops (env : AnalyzerEnv) (a : Option String) (am mt : String)
    (ps : List String) (e : JsError)
    (hfull : runAnalysisM env a am mt ps = .error e)
    (hcap : isCapacityError e = false) :
    analyzeRecordingM env a am mt ps true = (.error e, ["Full"]) := by
  cases e with
  | plain m =>
      have hc := runAnalysisM_plain_capacity hfull
      rw [hc] at hcap
      cases hcap
  | guser t m =>
      by_cases ht : isNonRetryableType t = true
      · simp [analyzeRecordingM, strategiesOf, strategyLoop, hfull, isNonRetryableUserError, ht]
      · rw [Bool.not_eq_true] at ht
        have ht' : isNonRetryableUserError (.guser t m) = false := by
          simp [isNonRetryableUserError, ht]
        simp [analyzeRecordingM, strategiesOf, strategyLoop, hfull, ht', hcap, finalRaise]

/-- C7 witness: a 403-classified model failure (AUTH_ERROR, not
capacity-shaped): one strategy attempted, the error unchanged. -/
theorem fallback_noncapacity_stops_witness :
    analyzeRecordingM c7Env none "" "" [] true =
      (.error (.guser .AUTH_ERROR authErrorMsg), ["Full"]) :=
  fallback_noncapacity_stops c7Env none "" "" []
    (.guser .AUTH_ERROR authErrorMsg) rfl (by decide)

/-- C5 witness: a message with a 429 token and a daily-quota signal
classifies as QUOTA_EXHAUSTED; an explicit status-429 error without a
quota signal gets the fixed 65 s wait hint. -/
theorem classify_429_classification_witness :
    (classifyGeminiError ⟨none, "429 daily quota exceeded"⟩).type = .QUOTA_EXHAUSTED ∧
    (classifyGeminiError ⟨some 429, "slow down"⟩).waitMs = some RATE_LIMIT_WAIT_MS :=
  ⟨((classify_429_classification ⟨none, "429 daily quota exceeded"⟩
      (Or.inr (Or.inl (by decide)))).1 (by decide)).1,
   (((classify_429_classification ⟨some 429, "slow down"⟩
      (Or.inl rfl)).2 (by decide)).2.2).1⟩

/-- C8 counterexample: a 100,001-character transcript (no timeline
section): the metadata text included in the prompt comes out 100,044
characters long — the hard truncation keeps the first 100,000 characters
and then appends a 44-character marker, so the result exceeds the
100,000-character (100 KB) cap, contrary to the claim. -/
theorem metadata_cap_counterexample :
    100000 < (metaIncluded (String.mk (List.replicate 100001 'a'))).length := by
  have hdata : (String.mk (List.replicate 100001 'a')).data = List.replicate 100001 'a' := rfl
  have htrim : jsTrim (String.mk (List.replicate 100001 'a')) =
      String.mk (List.replicate 100001 'a') := by
    unfold jsTrim
    rw [hdata, jsTrimL_replicate]
  have hT : jsIndexOfL (List.replicate 100001 'a') timelineMarker = none := by
    have ht : timelineMarker = 'S' :: "PEAKER ACTIVITY TIMELINE".data := by decide
    rw [ht]
    exact jsIndexOf_replicate_none _ _ (by decide) _
  have hS : jsIndexOfL (List.replicate 100001 'a') screenshotMarker = none := by
    have hs : screenshotMarker = '\n' :: "\nSCREENSHOT EVIDENCE".data := by decide
    rw [hs]
    exact jsIndexOf_replicate_none _ _ (by decide) _
  simp only [metaIncluded]
  rw [htrim]
  have hgt : 100000 < (String.mk (List.replicate 100001 'a')).length := by
    rw [strLength_mk, List.length_replicate]
    norm_num
  rw [if_pos hgt]
  rw [trimMetadata_length_eq, hdata]
  have hnot : ¬ ((List.replicate 100001 'a').length ≤ 100000) := by
    rw [List.length_replicate]
    omega
  unfold trimMetadataL
  rw [if_neg hnot]
  simp only [hT, hS]
  have hmark := truncMarker_length
  simp only [List.length_append, List.length_take, List.length_replicate, hmark]
  omega

/-- C8 amended: the metadata text included in the prompt is capped at the
100,000-character cap plus the fixed 44-character hard-truncation marker:
its length never exceeds 100,044; a successful structural trim stays within
the cap itself, and the marker-bearing overflow occurs only on the hard
truncation path. -/
theorem metadata_cap_with_marker (t : String) :
    (metaIncluded t).length ≤ 100044 := by
  simp only [metaIncluded]
  split
  case isTrue h =>
    have h2 := trimMetadataL_length (jsTrim t).data 100000
    have h3 : (trimMetadata (jsTrim t) 100000).length =
        (trimMetadataL (jsTrim t).data 100000).length := rfl
    omega
  case isFalse h => omega

/-- C9: every successfully assembled parts list is: at most one
audio-derived part (staged-file reference or inline audio, never a text
part) first, then the image parts — inline parts with an image mime type,
in sampled timeline order — then exactly one trailing text part, the
prompt. -/
theorem parts_ordering_invariant (env : AnalyzerEnv) (a : Option String) (am mt : String)
    (ps : List String) (parts : List Part)
    (h : buildParts env a am mt ps = .ok parts) :
    ∃ audio prompt, parts = audio ++ imageStage env ps ++ [Part.text prompt] ∧
      audio.length ≤ 1 ∧
      (∀ q ∈ audio, q.isText = false) ∧
      (∀ q ∈ imageStage env ps, ∃ mime dat, q = Part.inlineData mime dat ∧
        (mime = "image/png" ∨ mime = "image/jpeg")) := by
  cases ha : audioPartsOf env a am with
  | error e2 =>
      simp only [buildParts, ha] at h
      cases h
  | ok audio =>
      simp only [buildParts, ha, Except.ok.injEq] at h
      refine ⟨audio, promptOf env (audioPresentB env a) (imageStage env ps).length mt,
        h.symm, ?_, ?_, ?_⟩
      · rcases audioPartsOf_shape ha with h3 | ⟨u, mm, h3⟩ | ⟨mm, d, h3⟩ <;> simp [h3]
      · rcases audioPartsOf_shape ha with h3 | ⟨u, mm, h3⟩ | ⟨mm, d, h3⟩ <;>
          simp [h3, Part.isText]
      · intro q hq
        exact imagePartsOf_mem hq

/-- C9 witness: with no audio and no images the assembled list is exactly
one trailing text part. -/
theorem parts_ordering_invariant_witness :
    ∃ audio prompt,
      ([Part.text "SYS\n\n\nPlease provide the full meeting analysis in the exact format specified."] : List Part) =
        audio ++ imageStage c9Env [] ++ [Part.text prompt] ∧
      audio.length ≤ 1 ∧
      (∀ q ∈ audio, q.isText = false) ∧
      (∀ q ∈ imageStage c9Env [], ∃ mime dat, q = Part.inlineData mime dat ∧
        (mime = "image/png" ∨ mime = "image/jpeg")) :=
  parts_ordering_invariant c9Env none "" "" [] _ rfl

/-- C10: for every image-path list with at least 80 entries, all existing
and each at most 1.5 MB, the half-images fallback strategy assembles
exactly 40 image parts — the same count as the full strategy — because the
half-sized list (⌈n/2⌉ ≥ 40 entries) is re-capped to the 40-image
maximum. -/
theorem half_strategy_recap_40 (env : AnalyzerEnv) (ps : List String)
    (hlen : 80 ≤ ps.length)
    (hex : ∀ p ∈ ps, env.fsExists p = true)
    (hsz : ∀ p ∈ ps, env.fsSize p ≤ MAX_IMAGE_BYTES) :
    (imageStage env (sampleEvenly ps ((ps.length + 1) / 2))).length = 40 ∧
    (imageStage env ps).length = 40 := by
  constructor
  · have hsub : ∀ x ∈ sampleEvenly ps ((ps.length + 1) / 2), x ∈ ps :=
      fun x hx => sampleEvenly_mem hx
    have hlenHalf : (sampleEvenly ps ((ps.length + 1) / 2)).length = (ps.length + 1) / 2 := by
      rw [sampleEvenly_length]
      omega
    have hfilter : (sampleEvenly ps ((ps.length + 1) / 2)).filter
        (fun p => env.fsExists p) = sampleEvenly ps ((ps.length + 1) / 2) :=
      List.filter_eq_self.mpr (fun x hx => hex x (hsub x hx))
    unfold imageStage
    rw [hfilter]
    have hsampSub : ∀ x ∈ sampleEvenly (sampleEvenly ps ((ps.length + 1) / 2))
        MAX_SCREENSHOTS, x ∈ ps :=
      fun x hx => hsub x (sampleEvenly_mem hx)
    rw [imagePartsOf_length env _ (fun p hp => hsz p (hsampSub p hp))]
    rw [sampleEvenly_length, hlenHalf]
    unfold MAX_SCREENSHOTS
    omega
  · have hfilter : ps.filter (fun p => env.fsExists p) = ps :=
      List.filter_eq_self.mpr (fun x hx => hex x hx)
    unfold imageStage
    rw [hfilter]
    have hsampSub : ∀ x ∈ sampleEvenly ps MAX_SCREENSHOTS, x ∈ ps :=
      fun x hx => sampleEvenly_mem hx
    rw [imagePartsOf_length env _ (fun p hp => hsz p (hsampSub p hp))]
    rw [sampleEvenly_length]
    unfold MAX_SCREENSHOTS
    omega

/-- C10 witness: 80 existing small images: the half strategy still
assembles 40 image parts. -/
theorem half_strategy_recap_40_witness :
    (imageStage c10Env (sampleEvenly c10Paths ((c10Paths.length + 1) / 2))).length = 40 :=
  (half_strategy_recap_40 c10Env c10Paths (by decide)
    (fun _ _ => rfl) (fun _ _ => Nat.zero_le _)).1

end MeetingSense
